import Mathlib

/-!
Verification of the accountabot repository: a chat bot that records user
check-in timestamps, manages per-project tickets, renders progress
statistics, and sends time-window-gated reminders. The repository ships two
variants: a single-project tracker (main.go) and a multi-project tracker
(the unnamed source file). Both are shallowly embedded below: wall-clock
instants become integers (nanoseconds, matching Go's time.Duration
resolution), Go maps become association lists with replace-or-append
insertion, and the operations are direct translations of the Go function
bodies.
-/

namespace Accountabot

/-- Wall-clock instant, in nanoseconds, mirroring the resolution of Go's
time package (time.Duration counts nanoseconds; a time.Time wall clock is
recovered exactly at nanosecond resolution). -/
abbrev GoTime := Int

/-- Nanoseconds in one hour, the conversion factor behind Go's time.Hour. -/
def hourNs : Int := 3600000000000

/-- Go map modelled as an association list: earlier entries are earlier
insertions, and keys are unique whenever the list was built by
`mapInsert`. -/
abbrev GoMap (β : Type) := List (String × β)

/-- Go map assignment m[k] = v: replace the value in place when the key is
present, otherwise append the new binding at the end. -/
def mapInsert (m : GoMap β) (k : String) (v : β) : GoMap β :=
  match m with
  | [] => [(k, v)]
  | (k', v') :: rest =>
    if k' = k then (k', v) :: rest else (k', v') :: mapInsert rest k v

/-- Looking up the key just inserted returns the inserted value. -/
theorem lookup_mapInsert_self (m : GoMap β) (k : String) (v : β) :
    List.lookup k (mapInsert m k v) = some v := by
  induction m with
  | nil => simp [mapInsert, List.lookup]
  | cons hd tl ih =>
    obtain ⟨k', v'⟩ := hd
    by_cases h : k' = k
    · simp [mapInsert, h, List.lookup]
    · have hbeq : (k == k') = false := beq_eq_false_iff_ne.mpr (Ne.symm h)
      simp [mapInsert, h, List.lookup, hbeq, ih]

/-- Looking up a different key is unaffected by an insertion. -/
theorem lookup_mapInsert_ne (m : GoMap β) (k k' : String) (v : β)
    (h : k' ≠ k) : List.lookup k' (mapInsert m k v) = List.lookup k' m := by
  induction m with
  | nil =>
    have hbeq : (k' == k) = false := beq_eq_false_iff_ne.mpr h
    simp [mapInsert, List.lookup, hbeq]
  | cons hd tl ih =>
    obtain ⟨k0, v0⟩ := hd
    by_cases hk : k0 = k
    · subst hk
      have hbeq : (k' == k0) = false := beq_eq_false_iff_ne.mpr h
      simp [mapInsert, List.lookup, hbeq]
    · simp [mapInsert, hk, List.lookup, ih]

namespace Single

/-- User activity record of the single-project variant (main.go):
user id, display name, last check-in instant, and the capped history of
check-in instants. -/
structure UserActivity where
  UserID : String
  Username : String
  LastCheckIn : GoTime
  CheckIns : List GoTime
  deriving Repr, DecidableEq

/-- Database of the single-project variant: user id to activity record. -/
abbrev Database := GoMap UserActivity

/-- Append one check-in instant and truncate to the most recent 30 entries,
exactly the two steps recordCheckIn performs on the CheckIns slice:
append now, then keep the last 30 when the length exceeds 30. -/
def capAppend (c : List GoTime) (x : GoTime) : List GoTime :=
  if (c ++ [x]).length > 30 then (c ++ [x]).drop ((c ++ [x]).length - 30)
  else c ++ [x]

/-- Translation of recordCheckIn (main.go): fetch or create the user's
activity, refresh the username, set LastCheckIn to now, append now to the
history, cap the history at 30 entries, and store the record back. The Go
zero time of a fresh record is modelled as instant 0; it is overwritten in
the same call. -/
def recordCheckIn (db : Database) (userID username : String)
    (now : GoTime) : Database :=
  let activity :=
    match List.lookup userID db with
    | some a => a
    | none => UserActivity.mk userID username 0 []
  let activity := UserActivity.mk activity.UserID username now
    (capAppend activity.CheckIns now)
  mapInsert db userID activity

/-- Check-in history currently stored for a user: empty when the user is
absent. -/
def checkInsOf (db : Database) (userID : String) : List GoTime :=
  match List.lookup userID db with
  | some a => a.CheckIns
  | none => []

/-- Run recordCheckIn once for each instant in ts, in order, always for the
same user. -/
def recordMany (db : Database) (userID username : String)
    (ts : List GoTime) : Database :=
  ts.foldl (fun d t => recordCheckIn d userID username t) db

/-- One capped append is a plain append followed by dropping everything but
the last 30 entries; when the appended list is still short the drop count
is zero, so the two branches unify. -/
theorem capAppend_eq_drop (c : List GoTime) (x : GoTime) :
    capAppend c x = (c ++ [x]).drop ((c ++ [x]).length - 30) := by
  by_cases h : (c ++ [x]).length > 30
  · rw [capAppend, if_pos h]
  · have h0 : (c ++ [x]).length - 30 = 0 := by omega
    rw [capAppend, if_neg h, h0, List.drop_zero]

/-- A capped append never stores more than 30 entries. -/
theorem capAppend_length_le (c : List GoTime) (x : GoTime) :
    (capAppend c x).length ≤ 30 := by
  rw [capAppend_eq_drop]
  simp only [List.length_drop]
  omega

/-- Truncating to the last n entries, appending, and truncating again gives
the same result as a single final truncation. -/
theorem drop_last_append (n : Nat) (l ts : List GoTime) :
    (l.drop (l.length - n) ++ ts).drop
        ((l.drop (l.length - n) ++ ts).length - n) =
      (l ++ ts).drop ((l ++ ts).length - n) := by
  have hd : l.length - n ≤ l.length := by omega
  have h1 : l.drop (l.length - n) ++ ts = (l ++ ts).drop (l.length - n) :=
    (List.drop_append_of_le_length hd).symm
  rw [h1, List.drop_drop, List.length_drop]
  congr 1
  simp only [List.length_append]
  omega

/-- Folding capped appends over a sequence of instants keeps exactly the
last 30 entries of the concatenated history, provided the starting history
is itself within the cap. -/
theorem foldl_capAppend_eq_drop (ts : List GoTime) :
    ∀ c : List GoTime, c.length ≤ 30 →
      ts.foldl capAppend c = (c ++ ts).drop ((c ++ ts).length - 30) := by
  induction ts with
  | nil =>
    intro c hc
    have h0 : (c ++ ([] : List GoTime)).length - 30 = 0 := by simp; omega
    rw [List.foldl_nil, h0, List.drop_zero, List.append_nil]
  | cons x ts ih =>
    intro c hc
    rw [List.foldl_cons, ih (capAppend c x) (capAppend_length_le c x),
      capAppend_eq_drop]
    have h := drop_last_append 30 (c ++ [x]) ts
    rw [h, List.append_assoc]
    rfl

/-- After one recordCheckIn, the stored history of that user is the capped
append of the previous history and the new instant (a fresh user starts
from the empty history). -/
theorem checkInsOf_recordCheckIn (db : Database) (u un : String)
    (t : GoTime) :
    checkInsOf (recordCheckIn db u un t) u = capAppend (checkInsOf db u) t := by
  unfold recordCheckIn checkInsOf
  rw [lookup_mapInsert_self]
  cases h : List.lookup u db <;> simp [h]

/-- After a run of recordCheckIn calls, the stored history is the fold of
capped appends over the call instants. -/
theorem checkInsOf_recordMany (ts : List GoTime) (u un : String) :
    ∀ db : Database,
      checkInsOf (recordMany db u un ts) u = ts.foldl capAppend (checkInsOf db u) := by
  induction ts with
  | nil => intro db; rfl
  | cons x ts ih =>
    intro db
    have := ih (recordCheckIn db u un x)
    rw [recordMany, List.foldl_cons, List.foldl_cons,
      ← checkInsOf_recordCheckIn db u un x]
    exact this

/-- Claim C1: in the single-project variant, after recordCheckIn has been
called 35 times for a user, the stored check-in history contains exactly
30 entries, and they are the timestamps of the 30 most recent calls in
insertion order (the five oldest were evicted first). -/
theorem claim_C1 (db : Database) (u un : String) (ts : List GoTime)
    (hfresh : List.lookup u db = none) (hlen : ts.length = 35) :
    checkInsOf (recordMany db u un ts) u = ts.drop 5 ∧
      (checkInsOf (recordMany db u un ts) u).length = 30 := by
  have h0 : checkInsOf db u = [] := by unfold checkInsOf; rw [hfresh]
  have h5 : ts.length - 30 = 5 := by omega
  rw [checkInsOf_recordMany ts u un db, h0,
    foldl_capAppend_eq_drop ts [] (by simp), List.nil_append, h5]
  exact ⟨rfl, by rw [List.length_drop]; omega⟩

/-- Witness for C1: a concrete run of 35 check-ins at instants 0,…,34 for
a fresh user leaves exactly the instants 5,…,34 stored. -/
theorem claim_C1_witness :
    List.lookup "u" ([] : Database) = none ∧
      (List.map Int.ofNat (List.range 35)).length = 35 ∧
      (checkInsOf
          (recordMany [] "u" "kevin.you"
            (List.map Int.ofNat (List.range 35))) "u" =
          (List.map Int.ofNat (List.range 35)).drop 5 ∧
        (checkInsOf
            (recordMany [] "u" "kevin.you"
              (List.map Int.ofNat (List.range 35))) "u").length = 30) :=
  ⟨rfl, by rw [List.length_map, List.length_range],
    claim_C1 [] "u" "kevin.you" (List.map Int.ofNat (List.range 35))
      rfl (by rw [List.length_map, List.length_range])⟩

end Single

/-- Decimal digit to its character, as Go's strconv emits it. -/
def digitChar (d : Nat) : Char := Char.ofNat (48 + d)

/-- Character back to its decimal digit value. -/
def charDigit (c : Char) : Nat := c.toNat - 48

/-- Decimal rendering of a natural number, most significant digit first:
the model of Go's fmt.Sprintf with verb %d on a non-negative value. -/
def renderNat (n : Nat) : List Char :=
  if n = 0 then ['0'] else ((Nat.digits 10 n).map digitChar).reverse

/-- Parse a most-significant-first decimal digit string; rejects the empty
string and any non-digit character. -/
def parseNat (l : List Char) : Option Nat :=
  if l ≠ [] ∧ ∀ c ∈ l, c.isDigit then
    some (l.foldl (fun a c => a * 10 + charDigit c) 0)
  else none

/-- Decimal string of a natural number, the model of fmt.Sprintf("%d", n)
used by createTicket for ticket IDs. -/
def formatDecimal (n : Nat) : String := ⟨renderNat n⟩

/-- Round trip of one digit's character. -/
theorem charDigit_digitChar : ∀ d, d < 10 → charDigit (digitChar d) = d := by
  decide

/-- Digit characters satisfy Char.isDigit. -/
theorem digitChar_isDigit : ∀ d, d < 10 → (digitChar d).isDigit = true := by
  decide

/-- Digit characters are never the minus sign. -/
theorem digitChar_ne_minus : ∀ d, d < 10 → digitChar d ≠ '-' := by
  decide

/-- Folding the decimal accumulator over rendered digits recovers the
positional value of the digit list. -/
theorem foldl_digits (ds : List Nat) (h : ∀ d ∈ ds, d < 10) (acc : Nat) :
    ((ds.map digitChar).reverse).foldl (fun a c => a * 10 + charDigit c) acc
      = acc * 10 ^ ds.length + Nat.ofDigits 10 ds := by
  induction ds with
  | nil => simp [Nat.ofDigits]
  | cons d tl ih =>
    have hd : d < 10 := h d (List.mem_cons_self d tl)
    have htl : ∀ x ∈ tl, x < 10 := fun x hx => h x (List.mem_cons_of_mem d hx)
    rw [List.map_cons, List.reverse_cons, List.foldl_append, ih htl,
      List.foldl_cons, List.foldl_nil, charDigit_digitChar d hd,
      Nat.ofDigits_cons, List.length_cons]
    ring

/-- Parsing a rendered natural number returns it: the decimal model is a
left-invertible encoding. -/
theorem parseNat_renderNat (n : Nat) : parseNat (renderNat n) = some n := by
  by_cases h0 : n = 0
  · subst h0; decide
  · have hne : Nat.digits 10 n ≠ [] := Nat.digits_ne_nil_iff_ne_zero.mpr h0
    have hlt : ∀ d ∈ Nat.digits 10 n, d < 10 := fun d hd =>
      Nat.digits_lt_base (by norm_num) hd
    have hmemdig : ∀ c ∈ ((Nat.digits 10 n).map digitChar).reverse,
        c.isDigit = true := by
      intro c hc
      rw [List.mem_reverse, List.mem_map] at hc
      obtain ⟨d, hd, rfl⟩ := hc
      exact digitChar_isDigit d (hlt d hd)
    have hnenil : ((Nat.digits 10 n).map digitChar).reverse ≠ [] := by
      simp only [ne_eq, List.reverse_eq_nil_iff, List.map_eq_nil_iff]
      exact hne
    rw [renderNat, if_neg h0, parseNat, if_pos ⟨hnenil, hmemdig⟩,
      foldl_digits (Nat.digits 10 n) hlt 0]
    rw [Nat.zero_mul, Nat.zero_add, Nat.ofDigits_digits]

/-- Distinct natural numbers render to distinct decimal strings. -/
theorem formatDecimal_injective : Function.Injective formatDecimal := by
  intro a b hab
  have hdata : renderNat a = renderNat b := congrArg String.data hab
  have ha := parseNat_renderNat a
  rw [hdata, parseNat_renderNat b] at ha
  exact (Option.some.injEq b a).mp ha |>.symm

/-- Signed decimal rendering of an integer, minus sign first. -/
def intToDec (i : Int) : String :=
  if i < 0 then ⟨'-' :: renderNat i.natAbs⟩ else ⟨renderNat i.natAbs⟩

/-- Parse a signed decimal character list back to the integer: an
optional leading minus sign followed by digits. -/
def parseIntChars : List Char → Option Int
  | [] => none
  | c :: rest =>
    if c = '-' then (parseNat rest).map (fun n => -(Int.ofNat n))
    else (parseNat (c :: rest)).map Int.ofNat

/-- Parse a signed decimal string back to the integer. -/
def parseIntDec (s : String) : Option Int := parseIntChars s.data

/-- A rendered natural number is never the empty string. -/
theorem renderNat_ne_nil (n : Nat) : renderNat n ≠ [] := by
  unfold renderNat
  split
  · simp
  · next h =>
    simp only [ne_eq, List.reverse_eq_nil_iff, List.map_eq_nil_iff]
    exact Nat.digits_ne_nil_iff_ne_zero.mpr h

/-- Every character of a rendered natural number is a decimal digit. -/
theorem renderNat_all_digits (n : Nat) :
    ∀ c ∈ renderNat n, c.isDigit = true := by
  unfold renderNat
  split
  · intro c hc
    rw [List.mem_singleton] at hc
    subst hc
    decide
  · intro c hc
    rw [List.mem_reverse, List.mem_map] at hc
    obtain ⟨d, hd, rfl⟩ := hc
    exact digitChar_isDigit d (Nat.digits_lt_base (by norm_num) hd)

/-- Parsing a rendered integer returns it: signed decimal rendering is a
left-invertible encoding. -/
theorem parseIntDec_intToDec (i : Int) : parseIntDec (intToDec i) = some i := by
  by_cases hneg : i < 0
  · rw [intToDec, if_pos hneg]
    show parseIntChars ('-' :: renderNat i.natAbs) = some i
    simp only [parseIntChars, if_true, parseNat_renderNat,
      Option.map_some', Option.some.injEq]
    show -((i.natAbs : Int)) = i
    omega
  · rw [intToDec, if_neg hneg]
    show parseIntChars (renderNat i.natAbs) = some i
    obtain ⟨c, rest, hcr⟩ : ∃ c rest, renderNat i.natAbs = c :: rest := by
      cases h : renderNat i.natAbs with
      | nil => exact absurd h (renderNat_ne_nil _)
      | cons c rest => exact ⟨c, rest, rfl⟩
    have hcd : c.isDigit = true :=
      renderNat_all_digits _ c (hcr ▸ List.mem_cons_self c rest)
    have hcm : c ≠ '-' := by
      intro he
      rw [he] at hcd
      exact absurd hcd (by decide)
    rw [hcr]
    simp only [parseIntChars]
    rw [if_neg hcm, ← hcr, parseNat_renderNat]
    simp only [Option.map_some', Option.some.injEq]
    show ((i.natAbs : Int)) = i
    omega

namespace Multi

/-- Ticket of the multi-project variant: id, title, description, status
string (the declared values are open, in_progress and done), creation and
completion instants, and the owning project label. -/
structure Ticket where
  ID : String
  Title : String
  Description : String
  Status : String
  CreatedAt : GoTime
  CompletedAt : GoTime
  ProjectName : String
  deriving Repr, DecidableEq

/-- Per-user, per-channel activity of the multi-project variant. -/
structure UserActivity where
  LastCheckIn : GoTime
  CheckIns : List GoTime
  Tickets : GoMap Ticket
  ProjectName : String
  deriving Repr, DecidableEq

/-- Database of the multi-project variant: user id to channel id to
activity. -/
abbrev Database := GoMap (GoMap UserActivity)

/-- Activity stored for a user/channel pair, when both levels exist. -/
def activityOf (db : Database) (userID channelID : String) :
    Option UserActivity :=
  (List.lookup userID db).bind (fun m => List.lookup channelID m)

/-- Ticket map stored for a user/channel pair (empty when absent). -/
def ticketsOf (db : Database) (userID channelID : String) : GoMap Ticket :=
  ((activityOf db userID channelID).map UserActivity.Tickets).getD []

/-- Ticket stored under a given id for a user/channel pair. -/
def ticketOf (db : Database) (userID channelID ticketID : String) :
    Option Ticket :=
  (activityOf db userID channelID).bind
    (fun a => List.lookup ticketID a.Tickets)

/-- Translation of createTicket: ensure the user map and the channel
activity exist (a fresh activity takes its project label from the tracked
channels configuration, its LastCheckIn is now), generate the ticket id as
the decimal rendering of the existing ticket count plus one, store a new
ticket in status open with CompletedAt at the zero instant, and return the
id together with the updated database. -/
def createTicket (trackedChannels : GoMap String) (db : Database)
    (userID channelID title description : String) (now : GoTime) :
    String × Database :=
  let userMap := (List.lookup userID db).getD []
  let activity :=
    match List.lookup channelID userMap with
    | some a => a
    | none =>
      UserActivity.mk now [] []
        ((List.lookup channelID trackedChannels).getD "")
  let ticketID := formatDecimal (activity.Tickets.length + 1)
  let ticket := Ticket.mk ticketID title description "open" now 0
    activity.ProjectName
  let activity2 := UserActivity.mk activity.LastCheckIn activity.CheckIns
    (mapInsert activity.Tickets ticketID ticket) activity.ProjectName
  (ticketID, mapInsert db userID (mapInsert userMap channelID activity2))

/-- Translation of completeTicket: three lookups, each of which returns a
plain not-found signal on failure and leaves the database untouched; on
success the ticket's status becomes done, its CompletedAt becomes now, and
the record is stored back followed by a persistence write. The result is
(success flag, database, whether saveDatabase was invoked). -/
def completeTicket (db : Database) (userID channelID ticketID : String)
    (now : GoTime) : Bool × Database × Bool :=
  match List.lookup userID db with
  | none => (false, db, false)
  | some userActivities =>
    match List.lookup channelID userActivities with
    | none => (false, db, false)
    | some activity =>
      match List.lookup ticketID activity.Tickets with
      | none => (false, db, false)
      | some ticket =>
        let ticket2 := Ticket.mk ticket.ID ticket.Title ticket.Description
          "done" ticket.CreatedAt now ticket.ProjectName
        let activity2 := UserActivity.mk activity.LastCheckIn
          activity.CheckIns (mapInsert activity.Tickets ticketID ticket2)
          activity.ProjectName
        (true,
          mapInsert db userID
            (mapInsert userActivities channelID activity2),
          true)

/-- Translation of listTickets: collect the stored tickets of the
user/channel pair, empty when either level is absent. The state is not
modified. -/
def listTickets (db : Database) (userID channelID : String) : List Ticket :=
  match List.lookup userID db with
  | none => []
  | some userActivities =>
    match List.lookup channelID userActivities with
    | none => []
    | some activity => activity.Tickets.map Prod.snd

/-- Translation of the multi-project recordCheckIn: ensure the user map
exists, fetch or create the channel activity (fresh activities carry the
channel's project label and an empty ticket map), set LastCheckIn to now
and append now to the history (no cap in this variant), and store back. -/
def recordCheckIn (db : Database) (userID channelID projectName : String)
    (now : GoTime) : Database :=
  let userMap := (List.lookup userID db).getD []
  let activity :=
    match List.lookup channelID userMap with
    | some a => a
    | none => UserActivity.mk 0 [] [] projectName
  let activity2 := UserActivity.mk now (activity.CheckIns ++ [now])
    activity.Tickets activity.ProjectName
  mapInsert db userID (mapInsert userMap channelID activity2)

/-- Run createTicket once per (title, description, instant) input, in
order, for a fixed user and channel, collecting the returned ticket ids. -/
def createMany (tc : GoMap String) (db : Database) (u ch : String) :
    List (String × String × GoTime) → List String × Database
  | [] => ([], db)
  | (title, desc, now) :: rest =>
    let r := createTicket tc db u ch title desc now
    let r2 := createMany tc r.2 u ch rest
    (r.1 :: r2.1, r2.2)

end Multi

/-- Inserting a key that is not yet present appends the binding at the
end of the association list. -/
theorem mapInsert_of_not_mem (m : GoMap β) (k : String) (v : β)
    (h : k ∉ m.map Prod.fst) : mapInsert m k v = m ++ [(k, v)] := by
  induction m with
  | nil => rfl
  | cons hd tl ih =>
    obtain ⟨k0, v0⟩ := hd
    rw [List.map_cons, List.mem_cons] at h
    push_neg at h
    obtain ⟨hk0, htl⟩ := h
    rw [mapInsert, if_neg (fun he => hk0 (he.symm)), ih htl,
      List.cons_append]

namespace Multi

/-- Ticket id returned by createTicket: the decimal rendering of the count
of the pair's existing tickets plus one. -/
theorem createTicket_fst (tc : GoMap String) (db : Database)
    (u ch t d : String) (now : GoTime) :
    (createTicket tc db u ch t d now).1
      = formatDecimal ((ticketsOf db u ch).length + 1) := by
  unfold createTicket ticketsOf activityOf
  cases hu : List.lookup u db with
  | none => simp [hu, List.lookup]
  | some um => cases hc : List.lookup ch um <;> simp [hu, hc]

/-- Creating a ticket under a not-yet-used id appends exactly that id to
the pair's ticket keys. -/
theorem ticketsOf_createTicket_keys (tc : GoMap String) (db : Database)
    (u ch t d : String) (now : GoTime)
    (hnot : formatDecimal ((ticketsOf db u ch).length + 1)
        ∉ (ticketsOf db u ch).map Prod.fst) :
    (ticketsOf (createTicket tc db u ch t d now).2 u ch).map Prod.fst
      = (ticketsOf db u ch).map Prod.fst
        ++ [formatDecimal ((ticketsOf db u ch).length + 1)] := by
  cases hu : List.lookup u db with
  | none =>
    have hT : ticketsOf db u ch = [] := by simp [ticketsOf, activityOf, hu]
    rw [hT] at hnot ⊢
    simp only [createTicket, hu, Option.getD_none, List.lookup_nil]
    simp [ticketsOf, activityOf, lookup_mapInsert_self, mapInsert]
  | some um =>
    cases hc : List.lookup ch um with
    | none =>
      have hT : ticketsOf db u ch = [] := by
        simp [ticketsOf, activityOf, hu, hc]
      rw [hT] at hnot ⊢
      simp only [createTicket, hu, Option.getD_some, hc]
      simp [ticketsOf, activityOf, lookup_mapInsert_self, mapInsert]
    | some act =>
      have hT : ticketsOf db u ch = act.Tickets := by
        simp [ticketsOf, activityOf, hu, hc]
      rw [hT] at hnot ⊢
      simp only [createTicket, hu, Option.getD_some, hc]
      simp only [ticketsOf, activityOf, lookup_mapInsert_self,
        Option.some_bind, Option.map_some, Option.getD_some]
      rw [mapInsert_of_not_mem _ _ _ hnot]
      simp

/-- Running createMany against a pair whose ticket keys are the decimal
renderings 1..j extends the keys to 1..j+n and returns the ids j+1..j+n,
in order. -/
theorem createMany_ids_general (tc : GoMap String) (u ch : String)
    (inputs : List (String × String × GoTime)) :
    ∀ (db : Database) (j : Nat),
      (ticketsOf db u ch).map Prod.fst
          = (List.range j).map (fun i => formatDecimal (i + 1)) →
      (createMany tc db u ch inputs).1
          = (List.range' (j + 1) inputs.length).map formatDecimal
        ∧ (ticketsOf (createMany tc db u ch inputs).2 u ch).map Prod.fst
          = (List.range (j + inputs.length)).map
              (fun i => formatDecimal (i + 1)) := by
  induction inputs with
  | nil =>
    intro db j hj
    exact ⟨rfl, by simpa using hj⟩
  | cons hd rest ih =>
    obtain ⟨t, d, now⟩ := hd
    intro db j hj
    have hlen : (ticketsOf db u ch).length = j := by
      have h := congrArg List.length hj
      simpa using h
    have hnot : formatDecimal ((ticketsOf db u ch).length + 1)
        ∉ (ticketsOf db u ch).map Prod.fst := by
      rw [hj, hlen]
      intro hmem
      rw [List.mem_map] at hmem
      obtain ⟨i, hi, he⟩ := hmem
      have hinj := formatDecimal_injective he
      rw [List.mem_range] at hi
      omega
    have hkeys := ticketsOf_createTicket_keys tc db u ch t d now hnot
    have hfst := createTicket_fst tc db u ch t d now
    have hkeys2 : (ticketsOf (createTicket tc db u ch t d now).2 u ch).map
          Prod.fst
        = (List.range (j + 1)).map (fun i => formatDecimal (i + 1)) := by
      rw [hkeys, hj, hlen, List.range_succ, List.map_append]
      simp
    have hih := ih (createTicket tc db u ch t d now).2 (j + 1) hkeys2
    refine ⟨?_, ?_⟩
    · show (createTicket tc db u ch t d now).1
          :: (createMany tc (createTicket tc db u ch t d now).2 u ch rest).1
        = _
      rw [hfst, hlen, hih.1]
      rfl
    · show (ticketsOf (createMany tc (createTicket tc db u ch t d now).2
            u ch rest).2 u ch).map Prod.fst = _
      rw [hih.2, List.length_cons]
      congr 2
      omega

/-- Claim C2: for a fresh user/channel pair, successive createTicket calls
return the decimal strings 1, 2, 3, … in creation order, and every
createTicket call returns the decimal rendering of the pair's existing
ticket count plus one. -/
theorem claim_C2 (tc : GoMap String) (db : Database) (u ch : String)
    (inputs : List (String × String × GoTime))
    (hfresh : activityOf db u ch = none) :
    (createMany tc db u ch inputs).1
        = (List.range inputs.length).map (fun i => formatDecimal (i + 1))
      ∧ ∀ (db0 : Database) (t d : String) (now : GoTime),
          (createTicket tc db0 u ch t d now).1
            = formatDecimal ((ticketsOf db0 u ch).length + 1) := by
  have h0 : (ticketsOf db u ch).map Prod.fst
      = (List.range 0).map (fun i => formatDecimal (i + 1)) := by
    simp [ticketsOf, hfresh]
  have h := (createMany_ids_general tc u ch inputs db 0 h0).1
  refine ⟨?_, fun db0 t d now => createTicket_fst tc db0 u ch t d now⟩
  rw [h, List.range'_eq_map_range, List.map_map]
  congr 1
  funext i
  simp [Nat.add_comm]

/-- Witness for C2: three creations against the empty database yield the
ids 1, 2 and 3. -/
theorem claim_C2_witness :
    activityOf [] "u" "c" = none ∧
      ((createMany [] [] "u" "c" [("a", "", 0), ("b", "", 1), ("c", "", 2)]).1
          = (List.range 3).map (fun i => formatDecimal (i + 1))
        ∧ ∀ (db0 : Database) (t d : String) (now : GoTime),
            (createTicket [] db0 "u" "c" t d now).1
              = formatDecimal ((ticketsOf db0 "u" "c").length + 1)) :=
  ⟨rfl, claim_C2 [] [] "u" "c" [("a", "", 0), ("b", "", 1), ("c", "", 2)] rfl⟩

/-- Claim C3: completeTicket returns the not-found signal false and leaves
the database unchanged, with no persistence write, whenever the user is
unknown, the channel is untracked for that user, or the ticket id is
absent; the result is the same triple in all three cases, so the failure
signal does not distinguish which level was missing. -/
theorem claim_C3 (db : Database) (u ch tid : String) (now : GoTime)
    (h : List.lookup u db = none ∨ activityOf db u ch = none
      ∨ ticketOf db u ch tid = none) :
    completeTicket db u ch tid now = (false, db, false) := by
  unfold completeTicket
  cases hu : List.lookup u db with
  | none => rfl
  | some um =>
    cases hc : List.lookup ch um with
    | none => simp only [hc]
    | some act =>
      cases ht : List.lookup tid act.Tickets with
      | none => simp only [hc, ht]
      | some tk =>
        exfalso
        rcases h with h | h | h
        · rw [hu] at h; exact Option.noConfusion h
        · rw [activityOf, hu, Option.some_bind, hc] at h
          exact Option.noConfusion h
        · rw [ticketOf, activityOf, hu, Option.some_bind, hc,
            Option.some_bind, ht] at h
          exact Option.noConfusion h

/-- Witness for C3: with one ticket 1 stored for the pair, completing
ticket 2 fails with the not-found triple and the untouched database. -/
theorem claim_C3_witness :
    (List.lookup "u"
          ([("u", [("c",
              UserActivity.mk 0 []
                [("1", Ticket.mk "1" "t" "" "open" 0 0 "p")] "p")])] :
            Database) = none
      ∨ activityOf
          [("u", [("c",
              UserActivity.mk 0 []
                [("1", Ticket.mk "1" "t" "" "open" 0 0 "p")] "p")])]
          "u" "c" = none
      ∨ ticketOf
          [("u", [("c",
              UserActivity.mk 0 []
                [("1", Ticket.mk "1" "t" "" "open" 0 0 "p")] "p")])]
          "u" "c" "2" = none) ∧
      completeTicket
          [("u", [("c",
              UserActivity.mk 0 []
                [("1", Ticket.mk "1" "t" "" "open" 0 0 "p")] "p")])]
          "u" "c" "2" 5
        = (false,
            [("u", [("c",
                UserActivity.mk 0 []
                  [("1", Ticket.mk "1" "t" "" "open" 0 0 "p")] "p")])],
            false) :=
  ⟨Or.inr (Or.inr (by decide)),
    claim_C3
      [("u", [("c",
          UserActivity.mk 0 []
            [("1", Ticket.mk "1" "t" "" "open" 0 0 "p")] "p")])]
      "u" "c" "2" 5 (Or.inr (Or.inr (by decide)))⟩

/-- Claim C10: completing a ticket that is already done does not fail: the
call returns true again, overwrites CompletedAt with the later call's
instant, keeps the status done, and leaves every other ticket field
unchanged. -/
theorem claim_C10 (db : Database) (u ch tid : String) (now : GoTime)
    (um : GoMap UserActivity) (act : UserActivity) (tk : Ticket)
    (hu : List.lookup u db = some um)
    (hc : List.lookup ch um = some act)
    (ht : List.lookup tid act.Tickets = some tk)
    (hdone : tk.Status = "done") :
    (completeTicket db u ch tid now).1 = true
      ∧ ticketOf (completeTicket db u ch tid now).2.1 u ch tid
          = some (Ticket.mk tk.ID tk.Title tk.Description "done"
              tk.CreatedAt now tk.ProjectName) := by
  unfold completeTicket
  simp only [hu, hc, ht]
  refine ⟨trivial, ?_⟩
  simp only [ticketOf, activityOf, lookup_mapInsert_self, Option.some_bind]

/-- Witness for C10: re-completing the already-done ticket 1 at instant 9
returns true and moves only CompletedAt to 9. -/
theorem claim_C10_witness :
    List.lookup "u"
        ([("u", [("c",
            UserActivity.mk 0 []
              [("1", Ticket.mk "1" "t" "descr" "done" 2 3 "p")] "p")])] :
          Database)
        = some [("c",
            UserActivity.mk 0 []
              [("1", Ticket.mk "1" "t" "descr" "done" 2 3 "p")] "p")] ∧
      ((completeTicket
            [("u", [("c",
                UserActivity.mk 0 []
                  [("1", Ticket.mk "1" "t" "descr" "done" 2 3 "p")] "p")])]
            "u" "c" "1" 9).1 = true
        ∧ ticketOf
            (completeTicket
              [("u", [("c",
                  UserActivity.mk 0 []
                    [("1", Ticket.mk "1" "t" "descr" "done" 2 3 "p")] "p")])]
              "u" "c" "1" 9).2.1 "u" "c" "1"
          = some (Ticket.mk "1" "t" "descr" "done" 2 9 "p")) :=
  ⟨by decide,
    claim_C10
      [("u", [("c",
          UserActivity.mk 0 []
            [("1", Ticket.mk "1" "t" "descr" "done" 2 3 "p")] "p")])]
      "u" "c" "1" 9
      [("c", UserActivity.mk 0 []
          [("1", Ticket.mk "1" "t" "descr" "done" 2 3 "p")] "p")]
      (UserActivity.mk 0 []
        [("1", Ticket.mk "1" "t" "descr" "done" 2 3 "p")] "p")
      (Ticket.mk "1" "t" "descr" "done" 2 3 "p")
      (by decide) (by decide) (by decide) rfl⟩

end Multi

/-- A successful lookup exhibits a member of the association list. -/
theorem mem_of_lookup (m : GoMap β) (k : String) (v : β)
    (h : List.lookup k m = some v) : (k, v) ∈ m := by
  induction m with
  | nil => exact Option.noConfusion h
  | cons hd tl ih =>
    obtain ⟨k0, v0⟩ := hd
    by_cases hk : k = k0
    · have hb : (k == k0) = true := beq_iff_eq.mpr hk
      simp only [List.lookup_cons, hb] at h
      obtain rfl := (Option.some.injEq v0 v).mp h
      rw [hk]
      exact List.mem_cons_self _ _
    · have hb : (k == k0) = false := beq_eq_false_iff_ne.mpr hk
      simp only [List.lookup_cons, hb] at h
      exact List.mem_cons_of_mem _ (ih h)

/-- Every member of an inserted map is the new binding or an old member. -/
theorem mem_mapInsert (m : GoMap β) (k : String) (v : β) (x : String × β)
    (h : x ∈ mapInsert m k v) : x = (k, v) ∨ x ∈ m := by
  induction m with
  | nil => simpa [mapInsert] using h
  | cons hd tl ih =>
    obtain ⟨k0, v0⟩ := hd
    by_cases hk : k0 = k
    · rw [mapInsert, if_pos hk] at h
      rcases List.mem_cons.mp h with h | h
      · left; rw [h, hk]
      · right; exact List.mem_cons_of_mem _ h
    · rw [mapInsert, if_neg hk] at h
      rcases List.mem_cons.mp h with h | h
      · right; rw [h]; exact List.mem_cons_self _ _
      · rcases ih h with h | h
        · left; exact h
        · right; exact List.mem_cons_of_mem _ h

/-- Lookup after insertion: the new value for the inserted key, the old
lookup for every other key. -/
theorem lookup_mapInsert (m : GoMap β) (k k' : String) (v : β) :
    List.lookup k' (mapInsert m k v)
      = if k' = k then some v else List.lookup k' m := by
  by_cases h : k' = k
  · rw [if_pos h, h, lookup_mapInsert_self]
  · rw [if_neg h, lookup_mapInsert_ne m k k' v h]

namespace Multi

/-- The database mutations reachable through the bot's message and command
handlers: ticket creation, ticket completion, a check-in, and a ticket
listing (which reads but does not modify the state). -/
inductive Op where
  | create (u ch title desc : String) (now : GoTime)
  | complete (u ch tid : String) (now : GoTime)
  | checkin (u ch project : String) (now : GoTime)
  | list (u ch : String)
  deriving Repr

/-- State transition of one operation. listTickets only reads, so its
transition is the identity on the database. -/
def applyOp (tc : GoMap String) (db : Database) : Op → Database
  | .create u ch t d now => (createTicket tc db u ch t d now).2
  | .complete u ch tid now => (completeTicket db u ch tid now).2.1
  | .checkin u ch pn now => recordCheckIn db u ch pn now
  | .list _ _ => db

/-- Run a sequence of operations from the empty database. -/
def runOps (tc : GoMap String) (ops : List Op) : Database :=
  ops.foldl (applyOp tc) []

/-- Every ticket stored anywhere in the database has status open or
done. -/
def statusOK (db : Database) : Prop :=
  ∀ p ∈ db, ∀ q ∈ p.2, ∀ r ∈ q.2.Tickets,
    r.2.Status = "open" ∨ r.2.Status = "done"

/-- Inserting one activity whose tickets are all open-or-done, into a user
map whose tickets are all open-or-done, preserves the invariant. -/
theorem statusOK_insert (db : Database) (u ch : String)
    (um : GoMap UserActivity) (act2 : UserActivity)
    (h : statusOK db)
    (hum : ∀ q ∈ um, ∀ r ∈ q.2.Tickets,
      r.2.Status = "open" ∨ r.2.Status = "done")
    (hact : ∀ r ∈ act2.Tickets,
      r.2.Status = "open" ∨ r.2.Status = "done") :
    statusOK (mapInsert db u (mapInsert um ch act2)) := by
  intro p hp q hq r hr
  rcases mem_mapInsert _ _ _ _ hp with hp | hp
  · rw [hp] at hq
    rcases mem_mapInsert _ _ _ _ hq with hq | hq
    · rw [hq] at hr
      exact hact r hr
    · exact hum q hq r hr
  · exact h p hp q hq r hr

/-- All tickets of every activity already stored under a user are
open-or-done when the whole database satisfies the invariant; stated for
the defaulted user map read by createTicket and recordCheckIn. -/
theorem statusOK_userMap (db : Database) (u : String) (h : statusOK db) :
    ∀ q ∈ (List.lookup u db).getD ([] : GoMap UserActivity),
      ∀ r ∈ q.2.Tickets, r.2.Status = "open" ∨ r.2.Status = "done" := by
  cases hu : List.lookup u db with
  | none => intro q hq; exact absurd hq (List.not_mem_nil q)
  | some um =>
    intro q hq r hr
    exact h (u, um) (mem_of_lookup db u um hu) q hq r hr

/-- createTicket preserves the open-or-done invariant: the fresh ticket is
created in status open, and no existing ticket's status changes. -/
theorem statusOK_createTicket (tc : GoMap String) (db : Database)
    (u ch t d : String) (now : GoTime) (h : statusOK db) :
    statusOK (createTicket tc db u ch t d now).2 := by
  have hum := statusOK_userMap db u h
  simp only [createTicket]
  cases hc : List.lookup ch ((List.lookup u db).getD []) with
  | none =>
    refine statusOK_insert db u ch _ _ h hum ?_
    intro r hr
    rcases mem_mapInsert _ _ _ _ hr with hr | hr
    · left; rw [hr]
    · exact absurd hr (List.not_mem_nil r)
  | some act =>
    refine statusOK_insert db u ch _ _ h hum ?_
    intro r hr
    rcases mem_mapInsert _ _ _ _ hr with hr | hr
    · left; rw [hr]
    · exact hum (ch, act) (mem_of_lookup _ _ _ hc) r hr

/-- completeTicket preserves the open-or-done invariant: the touched
ticket moves to status done, everything else is untouched. -/
theorem statusOK_completeTicket (db : Database) (u ch tid : String)
    (now : GoTime) (h : statusOK db) :
    statusOK (completeTicket db u ch tid now).2.1 := by
  unfold completeTicket
  cases hu : List.lookup u db with
  | none => exact h
  | some um =>
    cases hc : List.lookup ch um with
    | none => simp only [hc]; exact h
    | some act =>
      cases ht : List.lookup tid act.Tickets with
      | none => simp only [hc, ht]; exact h
      | some tk =>
        simp only [hc, ht]
        refine statusOK_insert db u ch um _ h ?_ ?_
        · intro q hq r hr
          exact h (u, um) (mem_of_lookup db u um hu) q hq r hr
        · intro r hr
          rcases mem_mapInsert _ _ _ _ hr with hr | hr
          · right; rw [hr]
          · exact h (u, um) (mem_of_lookup db u um hu) (ch, act)
              (mem_of_lookup um ch act hc) r hr

/-- recordCheckIn preserves the open-or-done invariant: it never touches
a ticket map other than installing the empty one for a fresh activity. -/
theorem statusOK_recordCheckIn (db : Database) (u ch pn : String)
    (now : GoTime) (h : statusOK db) :
    statusOK (recordCheckIn db u ch pn now) := by
  have hum := statusOK_userMap db u h
  simp only [recordCheckIn]
  cases hc : List.lookup ch ((List.lookup u db).getD []) with
  | none =>
    refine statusOK_insert db u ch _ _ h hum ?_
    intro r hr
    exact absurd hr (List.not_mem_nil r)
  | some act =>
    refine statusOK_insert db u ch _ _ h hum ?_
    intro r hr
    exact hum (ch, act) (mem_of_lookup _ _ _ hc) r hr

/-- createTicket never removes a stored ticket. -/
theorem ticketOf_createTicket_mono (tc : GoMap String) (db : Database)
    (u0 ch0 t d : String) (now : GoTime) (u ch tid : String)
    (h : (ticketOf db u ch tid).isSome) :
    (ticketOf (createTicket tc db u0 ch0 t d now).2 u ch tid).isSome := by
  simp only [createTicket, ticketOf, activityOf] at h ⊢
  rw [lookup_mapInsert]
  by_cases huu : u = u0
  · rw [if_pos huu, Option.some_bind, lookup_mapInsert]
    subst huu
    cases hu : List.lookup u db with
    | none => rw [hu, Option.none_bind] at h; exact absurd h (by simp)
    | some um =>
      rw [hu, Option.some_bind] at h
      simp only [hu, Option.getD_some]
      by_cases hcc : ch = ch0
      · rw [if_pos hcc]
        subst hcc
        cases hc : List.lookup ch um with
        | none => rw [hc, Option.none_bind] at h; exact absurd h (by simp)
        | some act =>
          rw [hc] at h
          simp only [Option.some_bind] at h ⊢
          rw [lookup_mapInsert]
          by_cases htt : tid = formatDecimal (act.Tickets.length + 1)
          · rw [if_pos htt]; rfl
          · rw [if_neg htt]; exact h
      · rw [if_neg hcc]; exact h
  · rw [if_neg huu]; exact h

/-- completeTicket never removes a stored ticket. -/
theorem ticketOf_completeTicket_mono (db : Database)
    (u0 ch0 tid0 : String) (now : GoTime) (u ch tid : String)
    (h : (ticketOf db u ch tid).isSome) :
    (ticketOf (completeTicket db u0 ch0 tid0 now).2.1 u ch tid).isSome := by
  unfold completeTicket
  cases hu0 : List.lookup u0 db with
  | none => exact h
  | some um0 =>
    cases hc0 : List.lookup ch0 um0 with
    | none => simp only [hc0]; exact h
    | some act0 =>
      cases ht0 : List.lookup tid0 act0.Tickets with
      | none => simp only [hc0, ht0]; exact h
      | some tk0 =>
        simp only [hc0, ht0]
        simp only [ticketOf, activityOf] at h ⊢
        rw [lookup_mapInsert]
        by_cases huu : u = u0
        · rw [if_pos huu, Option.some_bind, lookup_mapInsert]
          subst huu
          rw [hu0, Option.some_bind] at h
          by_cases hcc : ch = ch0
          · rw [if_pos hcc]
            subst hcc
            rw [hc0] at h
            simp only [Option.some_bind] at h ⊢
            rw [lookup_mapInsert]
            by_cases htt : tid = tid0
            · rw [if_pos htt]; rfl
            · rw [if_neg htt]; exact h
          · rw [if_neg hcc]; exact h
        · rw [if_neg huu]; exact h

/-- recordCheckIn never removes a stored ticket. -/
theorem ticketOf_recordCheckIn_mono (db : Database)
    (u0 ch0 pn : String) (now : GoTime) (u ch tid : String)
    (h : (ticketOf db u ch tid).isSome) :
    (ticketOf (recordCheckIn db u0 ch0 pn now) u ch tid).isSome := by
  simp only [recordCheckIn, ticketOf, activityOf] at h ⊢
  rw [lookup_mapInsert]
  by_cases huu : u = u0
  · rw [if_pos huu, Option.some_bind, lookup_mapInsert]
    subst huu
    cases hu : List.lookup u db with
    | none => rw [hu, Option.none_bind] at h; exact absurd h (by simp)
    | some um =>
      rw [hu, Option.some_bind] at h
      simp only [hu, Option.getD_some]
      by_cases hcc : ch = ch0
      · rw [if_pos hcc]
        subst hcc
        cases hc : List.lookup ch um with
        | none => rw [hc, Option.none_bind] at h; exact absurd h (by simp)
        | some act =>
          rw [hc] at h
          simpa using h
      · rw [if_neg hcc]; exact h
  · rw [if_neg huu]; exact h

/-- No operation removes a stored ticket. -/
theorem ticketOf_applyOp_mono (tc : GoMap String) (db : Database)
    (op : Op) (u ch tid : String)
    (h : (ticketOf db u ch tid).isSome) :
    (ticketOf (applyOp tc db op) u ch tid).isSome := by
  cases op with
  | create u0 ch0 t d now =>
    exact ticketOf_createTicket_mono tc db u0 ch0 t d now u ch tid h
  | complete u0 ch0 tid0 now =>
    exact ticketOf_completeTicket_mono db u0 ch0 tid0 now u ch tid h
  | checkin u0 ch0 pn now =>
    exact ticketOf_recordCheckIn_mono db u0 ch0 pn now u ch tid h
  | list u0 ch0 => exact h

/-- Every single operation preserves the open-or-done invariant. -/
theorem statusOK_applyOp (tc : GoMap String) (db : Database) (op : Op)
    (h : statusOK db) : statusOK (applyOp tc db op) := by
  cases op with
  | create u ch t d now => exact statusOK_createTicket tc db u ch t d now h
  | complete u ch tid now => exact statusOK_completeTicket db u ch tid now h
  | checkin u ch pn now => exact statusOK_recordCheckIn db u ch pn now h
  | list u ch => exact h

/-- Folding operations preserves the open-or-done invariant. -/
theorem statusOK_foldl (tc : GoMap String) (ops : List Op) :
    ∀ db : Database, statusOK db → statusOK (ops.foldl (applyOp tc) db) := by
  induction ops with
  | nil => exact fun db h => h
  | cons op rest ih =>
    intro db h
    exact ih (applyOp tc db op) (statusOK_applyOp tc db op h)

/-- The ticket just created is stored with status open. -/
theorem createTicket_status_open (tc : GoMap String) (db : Database)
    (u ch t d : String) (now : GoTime) :
    (ticketOf (createTicket tc db u ch t d now).2 u ch
        (createTicket tc db u ch t d now).1).map Ticket.Status
      = some "open" := by
  simp only [createTicket, ticketOf, activityOf, lookup_mapInsert_self,
    Option.some_bind]
  rfl

/-- Claim C6: every ticket reachable from the empty database through the
bot's operations has status open or done: tickets are created in status
open, completeTicket is the only transition (to done), no operation ever
assigns in_progress, and no operation ever deletes a stored ticket. -/
theorem claim_C6 (tc : GoMap String) :
    (∀ ops : List Op, statusOK (runOps tc ops))
      ∧ (∀ (db : Database) (op : Op) (u ch tid : String),
          (ticketOf db u ch tid).isSome →
          (ticketOf (applyOp tc db op) u ch tid).isSome)
      ∧ (∀ (db : Database) (u ch t d : String) (now : GoTime),
          (ticketOf (createTicket tc db u ch t d now).2 u ch
              (createTicket tc db u ch t d now).1).map Ticket.Status
            = some "open") := by
  refine ⟨?_, ?_, ?_⟩
  · intro ops
    refine statusOK_foldl tc ops [] ?_
    intro p hp
    exact absurd hp (List.not_mem_nil p)
  · intro db op u ch tid h
    exact ticketOf_applyOp_mono tc db op u ch tid h
  · intro db u ch t d now
    exact createTicket_status_open tc db u ch t d now

/-- Witness for C6: a concrete create-then-complete run keeps every
stored ticket open or done, completing does not delete the stored ticket,
and a concrete creation stores status open. -/
theorem claim_C6_witness :
    statusOK (runOps []
        [Op.create "u" "c" "t" "" 0, Op.complete "u" "c" "1" 1])
      ∧ (ticketOf
          (applyOp []
            [("u", [("c",
                UserActivity.mk 0 []
                  [("1", Ticket.mk "1" "t" "" "open" 0 0 "p")] "p")])]
            (Op.complete "u" "c" "1" 2)) "u" "c" "1").isSome
      ∧ (ticketOf (createTicket [] [] "u" "c" "t" "" 0).2 "u" "c"
            (createTicket [] [] "u" "c" "t" "" 0).1).map Ticket.Status
          = some "open" :=
  ⟨(claim_C6 []).1
      [Op.create "u" "c" "t" "" 0, Op.complete "u" "c" "1" 1],
    (claim_C6 []).2.1
      [("u", [("c",
          UserActivity.mk 0 []
            [("1", Ticket.mk "1" "t" "" "open" 0 0 "p")] "p")])]
      (Op.complete "u" "c" "1" 2) "u" "c" "1" (by decide),
    (claim_C6 []).2.2 [] "u" "c" "t" "" 0⟩

end Multi

/-- Translation of getPercentage: zero total is guarded to 0.0, otherwise
completed over total times 100. The Go function computes in float64; it is
modelled here in exact rational arithmetic, which coincides with the
float64 result at the claimed inputs (0/0 is guarded, and 3/4 as well as
75.0 are exactly representable doubles). -/
def getPercentage (completed total : Int) : ℚ :=
  if total = 0 then 0 else (completed : ℚ) / (total : ℚ) * 100

/-- Number of filled blocks of the progress bar: the percentage over 100
times the bar length 10, converted to int. Go's int conversion truncates
toward zero, modelled by Int.tdiv on the reduced numerator and
denominator. -/
def filledBlocksOf (percentage : ℚ) : Int :=
  Int.tdiv (percentage / 100 * 10).num ((percentage / 100 * 10).den : Int)

/-- Translation of createProgressBar: an opening bracket, ten segments
each filled when its index is below the filled-block count, and a closing
bracket. -/
def createProgressBar (percentage : ℚ) : String :=
  ⟨'[' :: (((List.range 10).map
      (fun i => if ((i : Nat) : Int) < filledBlocksOf percentage
        then '█' else '░')) ++ [']'])⟩

/-- Claim C7: getPercentage(0,0) is 0.0 because the zero total is guarded
(no division by zero is attempted), and getPercentage(3,4) is exactly
75.0. -/
theorem claim_C7 : getPercentage 0 0 = 0 ∧ getPercentage 3 4 = 75 := by
  constructor
  · rfl
  · norm_num [getPercentage]

/-- Claim C8: the progress bar always renders exactly ten segments inside
its brackets; at percentage 0 none is filled, at 100 all ten are filled,
and at 55 exactly five are filled (truncation of 5.5). -/
theorem claim_C8 :
    createProgressBar 0 = "[░░░░░░░░░░]"
      ∧ createProgressBar 100 = "[██████████]"
      ∧ createProgressBar 55 = "[█████░░░░░]"
      ∧ ∀ p : ℚ, (createProgressBar p).length = 12 := by
  have h0 : filledBlocksOf 0 = 0 := by
    unfold filledBlocksOf
    rw [(by norm_num : ((0 : ℚ) / 100 * 10).num = 0),
      (by norm_num : ((0 : ℚ) / 100 * 10).den = 1)]
    rfl
  have h100 : filledBlocksOf 100 = 10 := by
    unfold filledBlocksOf
    rw [(by norm_num : ((100 : ℚ) / 100 * 10).num = 10),
      (by norm_num : ((100 : ℚ) / 100 * 10).den = 1)]
    rfl
  have h55 : filledBlocksOf 55 = 5 := by
    unfold filledBlocksOf
    rw [(by norm_num : ((55 : ℚ) / 100 * 10).num = 11),
      (by norm_num : ((55 : ℚ) / 100 * 10).den = 2)]
    rfl
  refine ⟨?_, ?_, ?_, ?_⟩
  · unfold createProgressBar; rw [h0]; decide
  · unfold createProgressBar; rw [h100]; decide
  · unfold createProgressBar; rw [h55]; decide
  · intro p
    unfold createProgressBar
    simp [String.length]

namespace Single

/-- Inbound chat message as the single-project handler sees it: author id,
author username, and the channel it was posted in. -/
structure Message where
  AuthorID : String
  AuthorUsername : String
  ChannelID : String
  deriving Repr, DecidableEq

/-- Translation of messageCreate (main.go): ignore the bot's own messages,
record a check-in exactly when the message is in the configured study
channel and its author's username is the hardcoded kevin.you, and leave
the database untouched otherwise. -/
def messageCreate (selfID studyChannelID : String) (db : Database)
    (m : Message) (now : GoTime) : Database :=
  if m.AuthorID = selfID then db
  else if m.ChannelID = studyChannelID ∧ m.AuthorUsername = "kevin.you"
  then recordCheckIn db m.AuthorID m.AuthorUsername now
  else db

/-- Claim C9: for every non-bot inbound message, a check-in is recorded
(appending the instant to the author's capped history) exactly when the
channel is the study channel and the author's username is kevin.you;
every other message leaves the database completely unchanged. -/
theorem claim_C9 (selfID sc : String) (db : Database) (m : Message)
    (now : GoTime) (hbot : m.AuthorID ≠ selfID) :
    (m.ChannelID = sc ∧ m.AuthorUsername = "kevin.you" →
        messageCreate selfID sc db m now
            = recordCheckIn db m.AuthorID m.AuthorUsername now
          ∧ checkInsOf (messageCreate selfID sc db m now) m.AuthorID
            = capAppend (checkInsOf db m.AuthorID) now)
      ∧ (¬(m.ChannelID = sc ∧ m.AuthorUsername = "kevin.you") →
          messageCreate selfID sc db m now = db) := by
  constructor
  · intro hcond
    have he : messageCreate selfID sc db m now
        = recordCheckIn db m.AuthorID m.AuthorUsername now := by
      rw [messageCreate, if_neg hbot, if_pos hcond]
    refine ⟨he, ?_⟩
    rw [he]
    exact checkInsOf_recordCheckIn db m.AuthorID m.AuthorUsername now
  · intro hcond
    rw [messageCreate, if_neg hbot, if_neg hcond]

/-- Witness for C9: a concrete matching message from kevin.you is
recorded, and a concrete mismatching one leaves the database unchanged. -/
theorem claim_C9_witness :
    (Message.mk "alice" "kevin.you" "chan").AuthorID ≠ "bot" ∧
      (((Message.mk "alice" "kevin.you" "chan").ChannelID = "chan"
          ∧ (Message.mk "alice" "kevin.you" "chan").AuthorUsername
              = "kevin.you" →
          messageCreate "bot" "chan" []
              (Message.mk "alice" "kevin.you" "chan") 7
            = recordCheckIn [] "alice" "kevin.you" 7
          ∧ checkInsOf
              (messageCreate "bot" "chan" []
                (Message.mk "alice" "kevin.you" "chan") 7) "alice"
            = capAppend (checkInsOf [] "alice") 7)
        ∧ (¬((Message.mk "alice" "kevin.you" "chan").ChannelID = "chan"
            ∧ (Message.mk "alice" "kevin.you" "chan").AuthorUsername
                = "kevin.you") →
            messageCreate "bot" "chan" []
              (Message.mk "alice" "kevin.you" "chan") 7 = [])) :=
  ⟨by decide,
    claim_C9 "bot" "chan" [] (Message.mk "alice" "kevin.you" "chan") 7
      (by decide)⟩

/-- Translation of checkAndSendReminders (main.go), taken after the
reminder time string has been parsed by fmt.Sscanf into an hour and a
minute: the tick returns without reminders unless the wall-clock hour
equals the reminder hour and the minute lies between the reminder minute
and the reminder minute plus five, both bounds included; inside the window
one reminder is sent per user whose time since last check-in exceeds the
configured frequency in hours. Go compares float64 hours; the comparison
is modelled exactly on nanosecond durations, with which it agrees away
from one ulp of the threshold. The result lists the user ids reminded. -/
def checkAndSendReminders (reminderHour reminderMinute : Nat)
    (checkInFrequency : Nat) (db : Database) (nowHour nowMin : Nat)
    (now : GoTime) : List String :=
  if nowHour ≠ reminderHour ∨ nowMin < reminderMinute
      ∨ nowMin > reminderMinute + 5 then []
  else
    db.filterMap (fun p =>
      if now - p.2.LastCheckIn > (checkInFrequency : Int) * hourNs
      then some p.1 else none)

end Single

/-- An element produced by the reminder filter is the key of the database
entry it came from. -/
theorem mem_filterMap_keyOut {α : Type} (db : List (String × α))
    (cond : String × α → Prop) [DecidablePred cond] (x : String)
    (h : x ∈ db.filterMap (fun p => if cond p then some p.1 else none)) :
    x ∈ db.map Prod.fst := by
  rw [List.mem_filterMap] at h
  obtain ⟨p, hp, he⟩ := h
  by_cases hc : cond p
  · rw [if_pos hc] at he
    obtain rfl := (Option.some.injEq _ _).mp he
    exact List.mem_map_of_mem Prod.fst hp
  · rw [if_neg hc] at he
    exact Option.noConfusion he

/-- A user whose key is absent from the database receives no reminder. -/
theorem count_filterMap_reminder_zero {α : Type} (db : List (String × α))
    (cond : String × α → Prop) [DecidablePred cond] (u : String)
    (h : u ∉ db.map Prod.fst) :
    (db.filterMap (fun p => if cond p then some p.1 else none)).count u
      = 0 :=
  List.count_eq_zero.mpr (fun hmem => h (mem_filterMap_keyOut db cond u hmem))

/-- A user stored once (keys are unique) whose entry satisfies the filter
condition is emitted exactly once. -/
theorem count_filterMap_reminder_one {α : Type}
    (cond : String × α → Prop) [DecidablePred cond] (u : String) (act : α) :
    ∀ db : List (String × α), (u, act) ∈ db →
      (db.map Prod.fst).Nodup → cond (u, act) →
      (db.filterMap (fun p => if cond p then some p.1 else none)).count u
        = 1 := by
  intro db
  induction db with
  | nil => intro hmem; exact absurd hmem (List.not_mem_nil _)
  | cons p rest ih =>
    intro hmem hnodup hcond
    rw [List.map_cons, List.nodup_cons] at hnodup
    obtain ⟨hp1, hrest⟩ := hnodup
    rcases List.mem_cons.mp hmem with hm | hm
    · subst hm
      rw [List.filterMap_cons, if_pos hcond]
      rw [List.count_cons, count_filterMap_reminder_zero rest cond u
        (by simpa using hp1)]
      simp
    · have hu : u ∈ rest.map Prod.fst := List.mem_map_of_mem Prod.fst hm
      have hne : p.1 ≠ u := fun he => hp1 (he ▸ hu)
      rw [List.filterMap_cons]
      by_cases hcp : cond p
      · rw [if_pos hcp, List.count_cons, ih hm hrest hcond]
        simp [hne]
      · rw [if_neg hcp]
        exact ih hm hrest hcond

/-- An element of the flattened per-user reminder lists is the key of the
entry it came from, provided each per-entry list only emits its key. -/
theorem mem_flatMap_keyOut {β : Type} (db : List (String × β))
    (g : String × β → List String)
    (hg : ∀ p, ∀ x ∈ g p, x = p.1) (x : String)
    (h : x ∈ db.flatMap g) : x ∈ db.map Prod.fst := by
  rw [List.mem_flatMap] at h
  obtain ⟨p, hp, hx⟩ := h
  rw [hg p x hx]
  exact List.mem_map_of_mem Prod.fst hp

/-- A user whose key is absent receives nothing from the flattened
reminder lists. -/
theorem count_flatMap_reminder_zero {β : Type} (db : List (String × β))
    (g : String × β → List String)
    (hg : ∀ p, ∀ x ∈ g p, x = p.1) (u : String)
    (h : u ∉ db.map Prod.fst) : (db.flatMap g).count u = 0 :=
  List.count_eq_zero.mpr (fun hmem => h (mem_flatMap_keyOut db g hg u hmem))

/-- A user stored once whose own reminder list has exactly one entry is
reminded exactly once across the flattened lists. -/
theorem count_flatMap_reminder_one {β : Type}
    (g : String × β → List String)
    (hg : ∀ p, ∀ x ∈ g p, x = p.1) (u : String) (um : β) :
    ∀ db : List (String × β), (u, um) ∈ db →
      (db.map Prod.fst).Nodup → (g (u, um)).length = 1 →
      (db.flatMap g).count u = 1 := by
  intro db
  induction db with
  | nil => intro hmem; exact absurd hmem (List.not_mem_nil _)
  | cons p rest ih =>
    intro hmem hnodup hlen
    rw [List.map_cons, List.nodup_cons] at hnodup
    obtain ⟨hp1, hrest⟩ := hnodup
    rw [List.flatMap_cons, List.count_append]
    rcases List.mem_cons.mp hmem with hm | hm
    · subst hm
      rw [count_flatMap_reminder_zero rest g hg u (by simpa using hp1)]
      have hcl : List.count u (g (u, um)) = (g (u, um)).length :=
        List.count_eq_length.mpr (fun b hb => (hg (u, um) b hb).symm)
      rw [hcl, hlen]
    · have hu : u ∈ rest.map Prod.fst := List.mem_map_of_mem Prod.fst hm
      have hne : p.1 ≠ u := fun he => hp1 (he ▸ hu)
      rw [ih hm hrest hlen,
        List.count_eq_zero.mpr (fun hb => hne ((hg p u hb).symm))]

namespace Multi

/-- Translation of sendDailyReminders: nothing is sent when the reminder
channel is unconfigured; otherwise every user/channel activity whose time
since last check-in exceeds the configured frequency times one hour
produces one reminder mentioning the user. The configured frequency is
Go's time.Duration-typed count multiplied by time.Hour, an exact integer
comparison in the source. The result lists the user ids reminded. -/
def sendDailyReminders (reminderChannelID : String)
    (checkInFrequency : Int) (db : Database) (now : GoTime) :
    List String :=
  if reminderChannelID = "" then []
  else
    db.flatMap (fun p =>
      p.2.filterMap (fun q =>
        if now - q.2.LastCheckIn > checkInFrequency * hourNs
        then some p.1 else none))

/-- Translation of one tick of reminderRoutine, taken after the reminder
time string has been split on the colon and each half parsed by
fmt.Sscanf: sendDailyReminders runs exactly when the wall-clock hour
equals the reminder hour and the minute is at least the reminder minute
but strictly below the reminder minute plus five. -/
def reminderTick (reminderHour reminderMinute : Nat)
    (reminderChannelID : String) (checkInFrequency : Int) (db : Database)
    (nowHour nowMin : Nat) (now : GoTime) : List String :=
  if nowHour = reminderHour ∧ nowMin < reminderMinute + 5
      ∧ reminderMinute ≤ nowMin
  then sendDailyReminders reminderChannelID checkInFrequency db now
  else []

end Multi

/-- Counterexample to C4 as stated: with reminder time 09:00 and frequency
24 hours, a multi-project tick at 09:05 sends no reminder to a user whose
last check-in was 30 hours earlier — although 09:05 lies inside the
claimed 09:00–09:05 firing window — while the identical tick at 09:04
does send exactly one. -/
theorem claim_C4_counterexample :
    Multi.reminderTick 9 0 "rc" 24
        [("u", [("c", Multi.UserActivity.mk 0 [] [] "p")])] 9 5
        (30 * hourNs) = []
      ∧ Multi.reminderTick 9 0 "rc" 24
          [("u", [("c", Multi.UserActivity.mk 0 [] [] "p")])] 9 4
          (30 * hourNs) = ["u"] := by
  constructor <;> decide

/-- Claim C4 as amended: reminders fire only when the hour matches and the
minute lies in the configured window, and each overdue user is reminded
exactly once per firing tick; the single-project window is the reminder
minute through the reminder minute plus five inclusive (09:00–09:05 for
reminder time 09:00), while the multi-project window is strict at the top
(09:00–09:04), so a 09:05 tick fires only in the single-project variant.
Outside its window a tick sends nothing regardless of overdue duration. -/
theorem claim_C4_amended (rh rm freqS : Nat) (freqM : Int) (rc : String)
    (dbS : Single.Database) (u : String) (act : Single.UserActivity)
    (dbM : Multi.Database) (uM chM : String) (actM : Multi.UserActivity)
    (nowHour nowMin : Nat) (now : GoTime)
    (hmemS : (u, act) ∈ dbS) (hnodupS : (dbS.map Prod.fst).Nodup)
    (hoverS : now - act.LastCheckIn > (freqS : Int) * hourNs)
    (hmemM : (uM, [(chM, actM)]) ∈ dbM)
    (hnodupM : (dbM.map Prod.fst).Nodup)
    (hoverM : now - actM.LastCheckIn > freqM * hourNs)
    (hrc : rc ≠ "") :
    ((nowHour = rh ∧ rm ≤ nowMin ∧ nowMin ≤ rm + 5) →
        (Single.checkAndSendReminders rh rm freqS dbS nowHour nowMin
            now).count u = 1)
      ∧ (¬(nowHour = rh ∧ rm ≤ nowMin ∧ nowMin ≤ rm + 5) →
          Single.checkAndSendReminders rh rm freqS dbS nowHour nowMin now
            = [])
      ∧ ((nowHour = rh ∧ rm ≤ nowMin ∧ nowMin < rm + 5) →
          (Multi.reminderTick rh rm rc freqM dbM nowHour nowMin
              now).count uM = 1)
      ∧ (¬(nowHour = rh ∧ rm ≤ nowMin ∧ nowMin < rm + 5) →
          Multi.reminderTick rh rm rc freqM dbM nowHour nowMin now = []) := by
  have hg : ∀ p : String × GoMap Multi.UserActivity,
      ∀ x ∈ p.2.filterMap (fun q =>
        if now - q.2.LastCheckIn > freqM * hourNs then some p.1 else none),
      x = p.1 := by
    intro p x hx
    rw [List.mem_filterMap] at hx
    obtain ⟨q, hq, he⟩ := hx
    by_cases hc : now - q.2.LastCheckIn > freqM * hourNs
    · rw [if_pos hc] at he
      exact ((Option.some.injEq _ _).mp he).symm
    · rw [if_neg hc] at he
      exact Option.noConfusion he
  refine ⟨?_, ?_, ?_, ?_⟩
  · intro hwin
    rw [Single.checkAndSendReminders, if_neg (by omega)]
    exact count_filterMap_reminder_one
      (fun p => now - p.2.LastCheckIn > (freqS : Int) * hourNs) u act dbS
      hmemS hnodupS hoverS
  · intro hwin
    rw [Single.checkAndSendReminders, if_pos (by omega)]
  · intro hwin
    rw [Multi.reminderTick, if_pos (by omega), Multi.sendDailyReminders,
      if_neg hrc]
    refine count_flatMap_reminder_one _ hg uM [(chM, actM)] dbM hmemM
      hnodupM ?_
    rw [List.filterMap_cons, if_pos hoverM]
    rfl
  · intro hwin
    rw [Multi.reminderTick, if_neg (by omega)]

/-- Witness for the amended C4: a concrete in-window tick at 09:03 with a
user 30 hours overdue in each variant. -/
theorem claim_C4_witness :
    (("u", Single.UserActivity.mk "u" "kevin.you" 0 [])
        ∈ [("u", Single.UserActivity.mk "u" "kevin.you" 0 [])] ∧
      (([("u", Single.UserActivity.mk "u" "kevin.you" 0 [])].map
          Prod.fst).Nodup) ∧
      (30 * hourNs - (Single.UserActivity.mk "u" "kevin.you" 0
          []).LastCheckIn > ((24 : Nat) : Int) * hourNs) ∧
      ("rc" : String) ≠ "") ∧
      (((9 = 9 ∧ 0 ≤ 3 ∧ 3 ≤ 0 + 5) →
          (Single.checkAndSendReminders 9 0 24
              [("u", Single.UserActivity.mk "u" "kevin.you" 0 [])] 9 3
              (30 * hourNs)).count "u" = 1)
        ∧ (¬(9 = 9 ∧ 0 ≤ 3 ∧ 3 ≤ 0 + 5) →
            Single.checkAndSendReminders 9 0 24
              [("u", Single.UserActivity.mk "u" "kevin.you" 0 [])] 9 3
              (30 * hourNs) = [])
        ∧ ((9 = 9 ∧ 0 ≤ 3 ∧ 3 < 0 + 5) →
            (Multi.reminderTick 9 0 "rc" 24
                [("u", [("c", Multi.UserActivity.mk 0 [] [] "p")])] 9 3
                (30 * hourNs)).count "u" = 1)
        ∧ (¬(9 = 9 ∧ 0 ≤ 3 ∧ 3 < 0 + 5) →
            Multi.reminderTick 9 0 "rc" 24
              [("u", [("c", Multi.UserActivity.mk 0 [] [] "p")])] 9 3
              (30 * hourNs) = [])) :=
  ⟨⟨List.mem_cons_self _ _, by decide, by decide, by decide⟩,
    claim_C4_amended 9 0 24 24 "rc"
      [("u", Single.UserActivity.mk "u" "kevin.you" 0 [])] "u"
      (Single.UserActivity.mk "u" "kevin.you" 0 [])
      [("u", [("c", Multi.UserActivity.mk 0 [] [] "p")])] "u" "c"
      (Multi.UserActivity.mk 0 [] [] "p") 9 3 (30 * hourNs)
      (List.mem_cons_self _ _) (by decide) (by decide)
      (List.mem_cons_self _ _) (by decide) (by decide) (by decide)⟩

/-- JSON document, at the level the persistence layer uses it: strings,
arrays, and objects (ordered field lists). saveDatabase marshals the
in-memory structure to such a document and writes its indented text;
loadDatabase reads the text back and unmarshals it. The text printing and
parsing of encoding/json, and the file write followed by the file read,
are modelled as the identity on this document. -/
inductive Json where
  | str (s : String)
  | arr (elems : List Json)
  | obj (fields : List (String × Json))

/-- Marshalling of a time.Time value. Go emits an RFC3339 string carrying
the wall clock to nanosecond resolution — an injective rendering that
unmarshalling inverts exactly; the model renders the instant's nanosecond
count in signed decimal, which has the same contract. -/
def encodeTime (t : GoTime) : Json := .str (intToDec t)

/-- Unmarshalling of a time.Time value. -/
def decodeTime : Json → Option GoTime
  | .str s => parseIntDec s
  | _ => none

/-- Unmarshalling of a plain string field. -/
def asString : Json → Option String
  | .str s => some s
  | _ => none

/-- Marshalling of a Ticket, field names as in its json struct tags. -/
def encodeTicket (t : Multi.Ticket) : Json :=
  .obj [("id", .str t.ID), ("title", .str t.Title),
    ("description", .str t.Description), ("status", .str t.Status),
    ("createdAt", encodeTime t.CreatedAt),
    ("completedAt", encodeTime t.CompletedAt),
    ("projectName", .str t.ProjectName)]

/-- Unmarshalling of a Ticket: each field is read by its json tag name. -/
def decodeTicket : Json → Option Multi.Ticket
  | .obj fs => do
    let id ← (List.lookup "id" fs).bind asString
    let title ← (List.lookup "title" fs).bind asString
    let description ← (List.lookup "description" fs).bind asString
    let status ← (List.lookup "status" fs).bind asString
    let createdAt ← (List.lookup "createdAt" fs).bind decodeTime
    let completedAt ← (List.lookup "completedAt" fs).bind decodeTime
    let projectName ← (List.lookup "projectName" fs).bind asString
    some (Multi.Ticket.mk id title description status createdAt
      completedAt projectName)
  | _ => none

/-- Unmarshalling of a JSON object into a string-keyed map, one value at a
time; fails when any value fails. -/
def decodePairs (f : Json → Option β) :
    List (String × Json) → Option (GoMap β)
  | [] => some []
  | (k, j) :: rest =>
    match f j, decodePairs f rest with
    | some v, some r => some ((k, v) :: r)
    | _, _ => none

/-- Unmarshalling of a JSON array into a list, one element at a time. -/
def decodeList (f : Json → Option β) : List Json → Option (List β)
  | [] => some []
  | j :: rest =>
    match f j, decodeList f rest with
    | some v, some r => some (v :: r)
    | _, _ => none

/-- Unmarshalling of a time array. -/
def decodeTimes : Json → Option (List GoTime)
  | .arr js => decodeList decodeTime js
  | _ => none

/-- Unmarshalling of a ticket map. -/
def decodeTicketMap : Json → Option (GoMap Multi.Ticket)
  | .obj fs => decodePairs decodeTicket fs
  | _ => none

/-- Marshalling of a UserActivity, field names as in its json struct
tags. -/
def encodeActivity (a : Multi.UserActivity) : Json :=
  .obj [("lastCheckIn", encodeTime a.LastCheckIn),
    ("checkIns", .arr (a.CheckIns.map encodeTime)),
    ("tickets", .obj (a.Tickets.map (fun p => (p.1, encodeTicket p.2)))),
    ("projectName", .str a.ProjectName)]

/-- Unmarshalling of a UserActivity. -/
def decodeActivity : Json → Option Multi.UserActivity
  | .obj fs => do
    let lastCheckIn ← (List.lookup "lastCheckIn" fs).bind decodeTime
    let checkIns ← (List.lookup "checkIns" fs).bind decodeTimes
    let tickets ← (List.lookup "tickets" fs).bind decodeTicketMap
    let projectName ← (List.lookup "projectName" fs).bind asString
    some (Multi.UserActivity.mk lastCheckIn checkIns tickets projectName)
  | _ => none

/-- Unmarshalling of one user's channel map. -/
def decodeChannelMap : Json → Option (GoMap Multi.UserActivity)
  | .obj fs => decodePairs decodeActivity fs
  | _ => none

/-- Translation of saveDatabase: marshal the database (without the mutex)
as one object holding the userActivities field, a two-level map of
activities. -/
def saveDatabaseJson (db : Multi.Database) : Json :=
  .obj [("userActivities",
    .obj (db.map (fun p =>
      (p.1, .obj (p.2.map (fun q => (q.1, encodeActivity q.2)))))))]

/-- Translation of loadDatabase: read the userActivities field and
unmarshal the two-level map; any structural mismatch fails. -/
def loadDatabaseJson (j : Json) : Option Multi.Database :=
  match j with
  | .obj fs =>
    (List.lookup "userActivities" fs).bind (fun v =>
      match v with
      | .obj us => decodePairs decodeChannelMap us
      | _ => none)
  | _ => none

/-- Unmarshalling a marshalled ticket returns it unchanged. -/
theorem decodeTicket_encodeTicket (t : Multi.Ticket) :
    decodeTicket (encodeTicket t) = some t := by
  simp [encodeTicket, decodeTicket, List.lookup, asString, decodeTime,
    encodeTime, parseIntDec_intToDec]

/-- Unmarshalling a marshalled string-keyed map returns it unchanged when
the value codec round-trips. -/
theorem decodePairs_map {β : Type} (f : Json → Option β) (enc : β → Json)
    (hf : ∀ v, f (enc v) = some v) :
    ∀ l : GoMap β, decodePairs f (l.map (fun p => (p.1, enc p.2))) = some l := by
  intro l
  induction l with
  | nil => rfl
  | cons p rest ih =>
    obtain ⟨k, v⟩ := p
    simp only [List.map_cons, decodePairs, hf v, ih]

/-- Unmarshalling a marshalled array returns it unchanged when the element
codec round-trips. -/
theorem decodeList_map {β : Type} (f : Json → Option β) (enc : β → Json)
    (hf : ∀ v, f (enc v) = some v) :
    ∀ l : List β, decodeList f (l.map enc) = some l := by
  intro l
  induction l with
  | nil => rfl
  | cons v rest ih =>
    simp only [List.map_cons, decodeList, hf v, ih]

/-- Unmarshalling a marshalled activity returns it unchanged. -/
theorem decodeActivity_encodeActivity (a : Multi.UserActivity) :
    decodeActivity (encodeActivity a) = some a := by
  simp [encodeActivity, decodeActivity, List.lookup, asString, decodeTime,
    encodeTime, parseIntDec_intToDec, decodeTimes,
    decodeList_map decodeTime encodeTime parseIntDec_intToDec,
    decodeTicketMap,
    decodePairs_map decodeTicket encodeTicket decodeTicket_encodeTicket]

/-- Claim C5: saving the database and loading it back reproduces the same
mapping exactly — the same user and channel keys, the same check-in
instants at the persisted nanosecond resolution, and the same ticket
fields. -/
theorem claim_C5 (db : Multi.Database) :
    loadDatabaseJson (saveDatabaseJson db) = some db := by
  have hch : ∀ m : GoMap Multi.UserActivity,
      decodeChannelMap (.obj (m.map (fun q => (q.1, encodeActivity q.2))))
        = some m := fun m =>
    decodePairs_map decodeActivity encodeActivity
      decodeActivity_encodeActivity m
  simp only [saveDatabaseJson, loadDatabaseJson, List.lookup,
    Option.some_bind]
  exact decodePairs_map decodeChannelMap
    (fun m => .obj (m.map (fun q => (q.1, encodeActivity q.2)))) hch db

end Accountabot
